import Mathlib

/-!
Verification of the block filter index engine (`bloom.rs`) and the v3 table
snapshot metadata (`snapshot.rs`) of the datafuse storage layer.

The data model and the operations are shallowly embedded: Rust structs become
Lean structures, fallible functions return `Except ErrorCode`, machine
integers are `Nat` (with explicit `% 2 ^ w` where overflow matters), and the
ambient wall clock / uuid generator are passed as explicit arguments.
External collaborators that the repository treats as injected capabilities
(the siphash digest engine, the xor filter construction, the encode/compress
codecs, the constant folder) are modelled from the specification and marked
as such in their doc comments.
-/

/-- Error codes surfaced by the embedded operations (`common_exception::ErrorCode`).
Only the variants exercised by the embedded code paths are modelled. -/
inductive ErrorCode where
  | BadArguments (msg : String)
  | Internal (msg : String)
  | StorageOther (msg : String)
deriving DecidableEq, Repr

/-- Expression spans (`common_expression::Span`), an optional source location. -/
abbrev Span := Option Nat

/-- Runtime data types (`common_expression::types::DataType`), restricted to the
variants the filter-index code paths distinguish: a few supported leaf types, a
`Nullable` wrapper, a `Null` type, and a nested `Array` type standing for the
unsupported structured types. -/
inductive DataType where
  | Boolean
  | String
  | NumberUInt64
  | Null
  | Nullable (inner : DataType)
  | Array (inner : DataType)
deriving DecidableEq, Repr

/-- `DataType::is_nullable`: the type admits null values. -/
def DataType.is_nullable : DataType → Bool
  | .Nullable _ => true
  | .Null => true
  | _ => false

/-- Scalar runtime values (`common_expression::Scalar`), restricted to the
variants the embedded code paths construct or inspect.  Strings carry their
byte contents. -/
inductive Scalar where
  | Null
  | Boolean (b : Bool)
  | UInt64 (n : Nat)
  | String (s : List Nat)
deriving DecidableEq, Repr

/-- `Scalar::is_null`. -/
def Scalar.is_null : Scalar → Bool
  | .Null => true
  | _ => false

/-- Columnar values (`common_expression::Column`), restricted to the leaf kinds
used by the embedded paths plus a `Nullable` wrapper (inner data and a validity
bitmap) and a nested `Array` kind standing for unsupported structured columns.
At invalid positions of a `Nullable` column the inner data still holds some
value, exactly as the arrow buffers do. -/
inductive Column where
  | UInt64 (vs : List Nat)
  | Boolean (vs : List Bool)
  | String (vs : List (List Nat))
  | Nullable (column : Column) (validity : List Bool)
  | Array (inner : Column)
deriving DecidableEq, Repr

/-- Pairwise concatenation of two columns of the same shape
(`Column::concat` steps). -/
def Column.append2 : Column → Column → Option Column
  | .UInt64 a, .UInt64 b => some (.UInt64 (a ++ b))
  | .Boolean a, .Boolean b => some (.Boolean (a ++ b))
  | .String a, .String b => some (.String (a ++ b))
  | .Nullable c v, .Nullable c2 v2 =>
      (Column.append2 c c2).map (fun cc => .Nullable cc (v ++ v2))
  | _, _ => none

/-- `Column::concat`: concatenate a non-empty list of same-typed columns. -/
def Column.concat : List Column → Option Column
  | [] => none
  | c :: rest => rest.foldlM Column.append2 c

/-- Alias used where a constructor name shadows the `Column` type. -/
abbrev ColumnData := Column

/-- A value held by a block entry (`common_expression::Value`): either a
constant scalar or a full column. -/
inductive Value where
  | Scalar (s : Scalar)
  | Column (c : Column)
deriving DecidableEq, Repr

/-- Modelled from the spec: `Value::convert_to_full_column` belongs to the
external columnar block representation (excluded from the core).  A column is
returned as is; a constant scalar is materialized by replication to
`num_rows` rows of its declared type. -/
def Value.convert_to_full_column : Value → DataType → Nat → Option ColumnData
  | .Column c, _, _ => some c
  | .Scalar (Scalar.UInt64 n), DataType.NumberUInt64, rows =>
      some (.UInt64 (List.replicate rows n))
  | .Scalar (Scalar.Boolean b), DataType.Boolean, rows =>
      some (.Boolean (List.replicate rows b))
  | .Scalar (Scalar.String s), DataType.String, rows =>
      some (.String (List.replicate rows s))
  | _, _, _ => none

/-- Injective structural representation backing the digest model. -/
def scalarRepr : Scalar → (Option Bool) ⊕ (Nat ⊕ List Nat)
  | .Null => Sum.inl none
  | .Boolean b => Sum.inl (some b)
  | .UInt64 n => Sum.inr (Sum.inl n)
  | .String s => Sum.inr (Sum.inr s)

/-- Modelled from the spec: the external "siphash" digest engine (§6, §4.1 of
the spec; the repository evaluates the builtin `siphash` function, which is
outside the core).  The spec requires a deterministic digest where equal
values collide and unequal values collide only with negligible probability,
so the model uses an injective digest into `Nat`. -/
def siphash (s : Scalar) : Nat := Encodable.encode (scalarRepr s)

theorem scalarRepr_injective : Function.Injective scalarRepr := by
  intro a b h
  cases a <;> cases b <;> simp [scalarRepr] at h <;> simp [h]

theorem siphash_injective : Function.Injective siphash := by
  intro a b h
  exact scalarRepr_injective (Encodable.encode_injective h)

/-- Modelled from the spec: elementwise digesting of a whole column by the
external digest engine.  A plain column of a supported type digests to a
`UInt64` column; a nullable column digests its inner data (including the
values stored at invalid positions) and keeps the validity bitmap; nested
columns are not digestible. -/
def columnSiphash : Column → Option Column
  | .UInt64 vs => some (.UInt64 (vs.map (fun n => siphash (Scalar.UInt64 n))))
  | .Boolean vs => some (.UInt64 (vs.map (fun b => siphash (Scalar.Boolean b))))
  | .String vs => some (.UInt64 (vs.map (fun s => siphash (Scalar.String s))))
  | .Nullable inner validity =>
      (columnSiphash inner).map (fun c => .Nullable c validity)
  | .Array _ => none

/-- Legacy typed values (`common_expression::converts` `DataValue`), the value
representation the v2 on-disk filters were built against. -/
inductive DataValue where
  | Null
  | Boolean (b : Bool)
  | UInt64 (n : Nat)
  | String (s : List Nat)
deriving DecidableEq, Repr

/-- `scalar_to_datavalue` (`common_expression::converts`): convert a scalar to
its legacy typed value representation. -/
def scalar_to_datavalue : Scalar → DataValue
  | .Null => .Null
  | .Boolean b => .Boolean b
  | .UInt64 n => .UInt64 n
  | .String s => .String s

/-- Modelled from the spec: the legacy value-oriented hash used by v2 filters
(external to the core); deterministic over typed values. -/
def datavalue_digest (dv : DataValue) : Nat :=
  Encodable.encode (match dv with
    | .Null => Sum.inl (none : Option Bool)
    | .Boolean b => Sum.inl (some b)
    | .UInt64 n => Sum.inr (Sum.inl n)
    | .String s => (Sum.inr (Sum.inr s) : (Option Bool) ⊕ (Nat ⊕ List Nat)))

/-- Modelled from the spec (§4.2): the xor filter, an immutable probabilistic
membership structure built from a finite multiset of digests.  The spec's
contract is: no false negatives, bounded false positives, round-trip
serialization, and an optionally exposed distinct-digest count.  The model
keeps the distinct digests absorbed at build time; membership is exact, a
valid instance of the contract (false-positive rate zero). -/
structure Xor8Filter where
  keys : List Nat
deriving DecidableEq, Repr

/-- Modelled from the spec: the xor filter builder (`Xor8Builder`), which
accumulates digests until `build` is called. -/
structure Xor8Builder where
  digests : List Nat
deriving DecidableEq, Repr

/-- `Xor8Builder::create`. -/
def Xor8Builder.create : Xor8Builder := { digests := [] }

/-- `Xor8Builder::add_digests`: absorb a sequence of digests (duplicates
allowed). -/
def Xor8Builder.add_digests (b : Xor8Builder) (ds : List Nat) : Xor8Builder :=
  { digests := b.digests ++ ds }

/-- Modelled from the spec: `Xor8Builder::build` deduplicates the absorbed
digests and constructs the immutable filter; per the spec it succeeds on every
input produced by the index builder. -/
def Xor8Builder.build (b : Xor8Builder) : Except ErrorCode Xor8Filter :=
  .ok { keys := b.digests.dedup }

/-- `Xor8Filter::contains_digest`: digest-oriented membership (current path). -/
def Xor8Filter.contains_digest (f : Xor8Filter) (d : Nat) : Bool :=
  decide (d ∈ f.keys)

/-- `Xor8Filter::contains`: value-oriented membership (legacy v2 path). -/
def Xor8Filter.contains (f : Xor8Filter) (dv : DataValue) : Bool :=
  decide (datavalue_digest dv ∈ f.keys)

/-- `Xor8Filter::len`: the approximate distinct count exposed by the xor
construction algorithm (the count of distinct digests absorbed). -/
def Xor8Filter.len (f : Xor8Filter) : Option Nat :=
  some f.keys.length

/-- Modelled from the spec: serialization of a filter to an opaque byte/string
scalar (§6 treats the filter bytes as opaque; only the round trip matters).
The model stores the key count followed by the keys. -/
def Xor8Filter.to_bytes (f : Xor8Filter) : Except ErrorCode (List Nat) :=
  .ok (f.keys.length :: f.keys)

/-- Modelled from the spec: deserialization of a filter, returning the filter
and the number of entries consumed; fails on inconsistent lengths
(`CorruptFilterError`). -/
def Xor8Filter.from_bytes (bs : List Nat) : Except ErrorCode (Xor8Filter × Nat) :=
  match bs with
  | [] => .error (ErrorCode.StorageOther "bad bloom filter bytes")
  | n :: rest =>
      if n ≤ rest.length then
        .ok ({ keys := rest.take n }, n + 1)
      else
        .error (ErrorCode.StorageOther "bad bloom filter bytes")

theorem Xor8Filter.from_to_bytes (f : Xor8Filter) (bs : List Nat)
    (h : f.to_bytes = .ok bs) :
    Xor8Filter.from_bytes bs = .ok (f, f.keys.length + 1) := by
  cases h
  simp [Xor8Filter.from_bytes]

/-- Modelled from the spec (§4.3 step 1): `Xor8Filter::is_supported_type`; a
column type is eligible for filtering if, after unwrapping nullability, it is
one of the supported leaf types (numeric, string, boolean in this model);
nested and null types are not. -/
def Xor8Filter.is_supported_type : DataType → Bool
  | .Boolean => true
  | .String => true
  | .NumberUInt64 => true
  | .Nullable inner => Xor8Filter.is_supported_type inner
  | .Null => false
  | .Array _ => false

/-- Table-level data types (`common_expression::TableDataType`), restricted to
the variants the embedded paths construct. -/
inductive TableDataType where
  | Boolean
  | String
  | Number64
  | Nullable (inner : TableDataType)
deriving DecidableEq, Repr

/-- A field of a table schema (`common_expression::TableField`). -/
structure TableField where
  name : String
  data_type : TableDataType
deriving DecidableEq, Repr

/-- A table schema (`common_expression::TableSchema`): an ordered list of
fields. -/
structure TableSchema where
  fields : List TableField
deriving DecidableEq, Repr

/-- `TableSchema::field(i)`: the field at position `i` (the source panics out
of range; the model returns `none` there). -/
def TableSchema.field (s : TableSchema) (i : Nat) : Option TableField :=
  s.fields.get? i

/-- `TableSchema::has_field(name)`. -/
def TableSchema.has_field (s : TableSchema) (name : String) : Bool :=
  s.fields.any (fun f => f.name = name)

/-- `TableSchema::index_of(name)`: position of the first field with the given
name (the source returns an error when absent; the model returns `none`). -/
def TableSchema.index_of (s : TableSchema) (name : String) : Option Nat :=
  s.fields.findIdx? (fun f => f.name = name)

/-- A field of an in-memory data block (`common_expression::DataField`). -/
structure DataField where
  name : String
  data_type : DataType
deriving DecidableEq, Repr

/-- One column of a data block (`common_expression::BlockEntry`): its runtime
type and its value. -/
structure BlockEntry where
  data_type : DataType
  value : Value
deriving DecidableEq, Repr

/-- An in-memory data block (`common_expression::DataBlock`). -/
structure DataBlock where
  columns : List BlockEntry
  num_rows : Nat
deriving DecidableEq, Repr

/-- `DataBlock::num_columns`. -/
def DataBlock.num_columns (b : DataBlock) : Nat := b.columns.length

/-- `DataBlock::get_by_offset(i)` (the source panics out of range; the model
returns `none` there). -/
def DataBlock.get_by_offset (b : DataBlock) (i : Nat) : Option BlockEntry :=
  b.columns.get? i

/-- The evaluation context of the injected function registry
(`common_expression::FunctionContext`); opaque to the embedded code paths. -/
structure FunctionContext where
deriving DecidableEq, Repr

/-- Modelled from the spec: `V2BloomBlock::VERSION`, the format tag of the
legacy v2 bloom filter layout (the version constants live outside `src/`).
The v3-and-later layouts carry larger tags. -/
def V2BloomBlockVERSION : Nat := 2

/-- Predicate expressions (`common_expression::Expr<String>`), restricted to
the node kinds the rewriter distinguishes: constants, column references,
casts, and function calls (the call node keeping only the signature name the
rewriter inspects). -/
inductive Expr where
  | Constant (span : Span) (scalar : Scalar) (data_type : DataType)
  | ColumnRef (span : Span) (id : String) (data_type : DataType)
  | Cast (span : Span) (is_try : Bool) (expr : Expr) (dest_type : DataType)
  | FunctionCall (span : Span) (name : String) (args : List Expr)
      (return_type : DataType)

/-- The visitor callback fed to `visit_expr_column_eq_constant`: receives the
span, column name, constant, the column's declared type and the equality's
return type, and optionally produces a replacement expression. -/
abbrev EqVisitor :=
  Span → String → Scalar → DataType → DataType → Except ErrorCode (Option Expr)

mutual

/-- `visit_expr_column_eq_constant` (bloom.rs): walk the expression, and on
every `eq` function call whose arguments are a column reference and a constant
(either order) ask the visitor for a replacement; when the visitor declines,
and on every other cast or function-call node, recurse into the
sub-expressions. -/
def visit_expr_column_eq_constant (visitor : EqVisitor) :
    Expr → Except ErrorCode Expr
  | .FunctionCall span name args return_type => do
      let hit ←
        match name, args with
        | "eq", [.ColumnRef _ id data_type, .Constant _ scalar _] =>
            visitor span id scalar data_type return_type
        | "eq", [.Constant _ scalar _, .ColumnRef _ id data_type] =>
            visitor span id scalar data_type return_type
        | _, _ => pure none
      match hit with
      | some new_expr => pure new_expr
      | none => do
          let args2 ← visitEqArgs visitor args
          pure (.FunctionCall span name args2 return_type)
  | .Cast span t e dest_type => do
      let e2 ← visit_expr_column_eq_constant visitor e
      pure (.Cast span t e2 dest_type)
  | e => pure e

/-- Rewrite each argument of a function call in order, stopping at the first
error. -/
def visitEqArgs (visitor : EqVisitor) : List Expr → Except ErrorCode (List Expr)
  | [] => pure []
  | e :: rest => do
      let e2 ← visit_expr_column_eq_constant visitor e
      let rest2 ← visitEqArgs visitor rest
      pure (e2 :: rest2)

end

/-- One constant-folding step: evaluate a pure function call whose arguments
are all constants (`eq` over equal-typed constants, the boolean connectives),
or decline. -/
def evalConstCall (span : Span) (name : String) (args : List Expr)
    (return_type : DataType) : Option Expr :=
  match name, args with
  | "eq", [.Constant _ a _, .Constant _ b _] =>
      if a = Scalar.Null ∨ b = Scalar.Null then
        some (.Constant span Scalar.Null return_type)
      else
        some (.Constant span (Scalar.Boolean (decide (a = b))) return_type)
  | "and", [.Constant _ (Scalar.Boolean a) _, .Constant _ (Scalar.Boolean b) _] =>
      some (.Constant span (Scalar.Boolean (a && b)) return_type)
  | "or", [.Constant _ (Scalar.Boolean a) _, .Constant _ (Scalar.Boolean b) _] =>
      some (.Constant span (Scalar.Boolean (a || b)) return_type)
  | "not", [.Constant _ (Scalar.Boolean a) _] =>
      some (.Constant span (Scalar.Boolean (!a)) return_type)
  | _, _ => none

mutual

/-- Modelled from the spec: the external constant folder
(`ConstantFolder::fold` of `common_expression`), which re-folds the predicate
after rewriting.  The model recursively folds sub-expressions and evaluates
pure function calls over fully-constant arguments; expressions that still
mention a column are left symbolic. -/
def foldExpr : Expr → Expr
  | .FunctionCall span name args return_type =>
      let args2 := foldExprArgs args
      match evalConstCall span name args2 return_type with
      | some e => e
      | none => .FunctionCall span name args2 return_type
  | .Cast span t e dest_type => .Cast span t (foldExpr e) dest_type
  | e => e

/-- Fold every argument of a function call. -/
def foldExprArgs : List Expr → List Expr
  | [] => []
  | e :: rest => foldExpr e :: foldExprArgs rest

end

/-- `ConstantFolder::fold` returns the folded expression together with an
inferred domain; the embedded paths discard the domain. -/
def ConstantFolder.fold (e : Expr) (_func_ctx : FunctionContext) : Expr × Unit :=
  (foldExpr e, ())

/-- The two pruning verdicts (`FilterEvalResult`); there is no MustTrue. -/
inductive FilterEvalResult where
  | MustFalse
  | Uncertain
deriving DecidableEq, Repr

/-- Per-column probabilistic filters of one data block (`BlockFilter`,
bloom.rs).  `filter_schema` names the filtered columns via the
`Bloom(<name>)` transform; `filter_block` holds one serialized filter per
filtered column; `column_distinct_count` keys approximate distinct counts by
original column position. -/
structure BlockFilter where
  func_ctx : FunctionContext
  source_schema : TableSchema
  filter_schema : TableSchema
  version : Nat
  filter_block : DataBlock
  column_distinct_count : List (Nat × Nat)

/-- `BlockFilter::from_filter_block` (bloom.rs): load a filter index directly
from a filter block read back from storage. -/
def BlockFilter.from_filter_block (func_ctx : FunctionContext)
    (source_schema : TableSchema) (filter_schema : TableSchema)
    (filter_block : DataBlock) (version : Nat) : Except ErrorCode BlockFilter :=
  .ok {
    version := version
    func_ctx := func_ctx
    source_schema := source_schema
    filter_schema := filter_schema
    filter_block := filter_block
    column_distinct_count := []
  }

/-- `BlockFilter::build_filter_column_name` (bloom.rs). -/
def BlockFilter.build_filter_column_name (column_name : String) : String :=
  "Bloom(" ++ column_name ++ ")"

/-- `BlockFilter::calculate_column_digest` (bloom.rs): evaluate the external
`siphash` function over the whole column; failures of the external evaluation
surface as internal errors. -/
def BlockFilter.calculate_column_digest (_func_ctx : FunctionContext)
    (column : Column) (_data_type : DataType) (_target_type : DataType) :
    Except ErrorCode Column :=
  match columnSiphash column with
  | some c => .ok c
  | none => .error (ErrorCode.Internal "eval siphash failed")

/-- First loop of `BlockFilter::try_create`: for each eligible column position,
record the digest field and the concatenation of the column across the input
blocks (positions with unsupported types are skipped entirely). -/
def tryCreateCollect (source_schema : TableSchema) (blocks : List DataBlock)
    (b0 : DataBlock) : List Nat →
    Except ErrorCode (List (DataField × Column × DataType))
  | [] => .ok []
  | i :: rest => do
      let entry ←
        match b0.get_by_offset i with
        | some e => pure e
        | none => Except.error (ErrorCode.Internal "column offset out of range")
      let data_type := entry.data_type
      if Xor8Filter.is_supported_type data_type then do
        let source_field ←
          match source_schema.field i with
          | some f => pure f
          | none => Except.error (ErrorCode.Internal "schema field out of range")
        let return_type :=
          if data_type.is_nullable then
            DataType.Nullable DataType.NumberUInt64
          else
            DataType.NumberUInt64
        let field : DataField := { name := source_field.name, data_type := return_type }
        let source_columns ← blocks.mapM (fun block => do
          let e ←
            match block.get_by_offset i with
            | some e => pure e
            | none => Except.error (ErrorCode.Internal "column offset out of range")
          match e.value.convert_to_full_column data_type block.num_rows with
          | some c => pure c
          | none => Except.error (ErrorCode.Internal "convert to full column failed"))
        let column ←
          match Column.concat source_columns with
          | some c => pure c
          | none => Except.error (ErrorCode.Internal "concat failed")
        let tail ← tryCreateCollect source_schema blocks b0 rest
        pure ((field, column, data_type) :: tail)
      else
        tryCreateCollect source_schema blocks b0 rest

/-- Second loop of `BlockFilter::try_create`: per eligible column, digest the
column, substitute the fixed zero sentinel at null positions, build and
serialize one xor filter, and record the approximate distinct count when the
construction exposes it.  Returns the filter-schema fields, the filter-block
entries and the distinct-count insertions, in column order. -/
def tryCreateBuild (func_ctx : FunctionContext) (source_schema : TableSchema) :
    List (DataField × Column × DataType) →
    Except ErrorCode (List TableField × List BlockEntry × List (Nat × Nat))
  | [] => .ok ([], [], [])
  | (field, column, data_type) :: rest => do
      let col ← BlockFilter.calculate_column_digest func_ctx column data_type
        field.data_type
      let pair ←
        if field.data_type.is_nullable then
          match col with
          | .Nullable (.UInt64 vs) validity => pure (vs, some validity)
          | _ => Except.error (ErrorCode.Internal "downcast nullable column failed")
        else
          match col with
          | .UInt64 vs => pure (vs, (none : Option (List Bool)))
          | _ => Except.error (ErrorCode.Internal "downcast column failed")
      let digest_col := pair.1
      let validity := pair.2
      let digests :=
        match validity with
        | some v =>
            if v.count false > 0 then
              (digest_col.zip v).map (fun p => if !p.2 then 0 else p.1)
            else
              digest_col
        | none => digest_col
      let filter_builder := Xor8Builder.create
      let filter_builder := filter_builder.add_digests digests
      let filter ← filter_builder.build
      let cnt ←
        match filter.len with
        | some len =>
            match source_schema.index_of field.name with
            | some idx => pure (some (idx, len))
            | none => Except.error (ErrorCode.Internal "index_of failed")
        | none => pure none
      let filter_name := BlockFilter.build_filter_column_name field.name
      let serialized_bytes ← filter.to_bytes
      let tail ← tryCreateBuild func_ctx source_schema rest
      let filter_field : TableField :=
        { name := filter_name, data_type := TableDataType.String }
      let filter_entry : BlockEntry :=
        { data_type := DataType.String
          value := Value.Scalar (Scalar.String serialized_bytes) }
      pure (filter_field :: tail.1, filter_entry :: tail.2.1,
        (match cnt with
         | some c => c :: tail.2.2
         | none => tail.2.2))

/-- `BlockFilter::try_create` (bloom.rs): build the per-column filters of one
physical block from the given in-memory blocks.  Fails on an empty block
list; returns no index when no column has a supported type. -/
def BlockFilter.try_create (func_ctx : FunctionContext)
    (source_schema : TableSchema) (version : Nat) (blocks : List DataBlock) :
    Except ErrorCode (Option BlockFilter) :=
  match blocks with
  | [] => .error (ErrorCode.BadArguments "block is empty")
  | b0 :: _ => do
      let pairs ← tryCreateCollect source_schema blocks b0
        (List.range b0.num_columns)
      if pairs.isEmpty then
        pure none
      else do
        let built ← tryCreateBuild func_ctx source_schema pairs
        pure (some {
          func_ctx := func_ctx
          version := version
          source_schema := source_schema
          filter_schema := { fields := built.1 }
          filter_block := { columns := built.2.1, num_rows := 1 }
          column_distinct_count := built.2.2
        })

/-- Association-list lookup standing for `HashMap::get` on the caller-supplied
scalar-to-digest map. -/
def lookupScalar : List (Scalar × Nat) → Scalar → Option Nat
  | [], _ => none
  | (k, v) :: rest, s => if k = s then some v else lookupScalar rest s

/-- `BlockFilter::find` (bloom.rs): answer whether the filter of one column
rules out `column_name = target`.  Absent filter, unsupported constant type or
a null constant resolve as Uncertain; otherwise the stored filter is
deserialized and queried through the version-dependent path. -/
def BlockFilter.find (self : BlockFilter) (column_name : String)
    (target : Scalar) (ty : DataType) (scalar_map : List (Scalar × Nat)) :
    Except ErrorCode FilterEvalResult :=
  let filter_column := BlockFilter.build_filter_column_name column_name
  if !self.filter_schema.has_field filter_column
      || !Xor8Filter.is_supported_type ty
      || target.is_null then
    .ok FilterEvalResult.Uncertain
  else do
    let idx ←
      match self.filter_schema.index_of filter_column with
      | some i => pure i
      | none => Except.error (ErrorCode.Internal "filter field not found")
    let entry ←
      match self.filter_block.get_by_offset idx with
      | some e => pure e
      | none => Except.error (ErrorCode.Internal "filter offset out of range")
    let filter_bytes ←
      match entry.value with
      | .Scalar (Scalar.String s) => pure s
      | .Column (.String (s :: _)) => pure s
      | _ => Except.error (ErrorCode.Internal "filter bytes not a string")
    let fpair ← Xor8Filter.from_bytes filter_bytes
    let filter := fpair.1
    let contains :=
      if self.version = V2BloomBlockVERSION then
        let datavalue := scalar_to_datavalue target
        filter.contains datavalue
      else
        match lookupScalar scalar_map target with
        | some digest => filter.contains_digest digest
        | none => true
    if contains then
      pure FilterEvalResult.Uncertain
    else
      pure FilterEvalResult.MustFalse

/-- `BlockFilter::eval` (bloom.rs): rewrite every `column = constant`
sub-expression the filters rule out to the constant `false`, re-fold the
predicate, and report MustFalse exactly when the whole predicate folded to
the constant `false`. -/
def BlockFilter.eval (self : BlockFilter) (expr : Expr)
    (scalar_map : List (Scalar × Nat)) : Except ErrorCode FilterEvalResult := do
  let expr2 ← visit_expr_column_eq_constant
    (fun span col_name scalar ty return_type => do
      let r ← self.find col_name scalar ty scalar_map
      if r = FilterEvalResult.MustFalse then
        pure (some (Expr.Constant span (Scalar.Boolean false) return_type))
      else
        pure none)
    expr
  let folded := ConstantFolder.fold expr2 self.func_ctx
  match folded.1 with
  | .Constant _ (Scalar.Boolean false) _ => pure FilterEvalResult.MustFalse
  | _ => pure FilterEvalResult.Uncertain

/-- Snapshot format version numbers (`FormatVersion`, a `u64`). -/
abbrev FormatVersion := Nat

/-- Snapshot identities (`SnapshotId`, a uuid; modelled as a number). -/
abbrev SnapshotId := Nat

/-- A segment location pointer (`Location`): path and format version. -/
abbrev Location := String × FormatVersion

/-- Cluster-key metadata (`ClusterKey`): key id and definition. -/
abbrev ClusterKey := Nat × String

/-- Aggregate summary statistics of a snapshot (`Statistics`), restricted to
the scalar summary fields the embedded paths read. -/
structure Statistics where
  row_count : Nat
  block_count : Nat
  perm_segment_count : Nat
  uncompressed_byte_size : Nat
  compressed_byte_size : Nat
  index_size : Nat
deriving DecidableEq, Repr

/-- The v3 table snapshot (`TableSnapshot`, snapshot.rs).  Timestamps are
nanoseconds since the epoch (the source uses `DateTime<Utc>` at nanosecond
precision); the optional timestamp is kept for backward compatibility. -/
structure TableSnapshot where
  format_version : FormatVersion
  snapshot_id : SnapshotId
  timestamp : Option Nat
  prev_snapshot_id : Option (SnapshotId × FormatVersion)
  schema : TableSchema
  summary : Statistics
  segments : List Location
  cluster_key_meta : Option ClusterKey
  table_statistics_location : Option String
deriving DecidableEq, Repr

/-- Modelled from the spec: `TableSnapshot::VERSION` of the v3 format (the
`Versioned` trait constants live outside `src/`). -/
def TableSnapshotVERSION : FormatVersion := 3

/-- Modelled from the spec (§4.5): `monotonically_increased_timestamp` (the
helper lives outside `src/`).  The spec gives `adjusted = max(now,
parent.timestamp + ε)` where ε is the smallest increment that survives the
microsecond truncation, i.e. one microsecond = 1000 nanoseconds; with no
parent timestamp the wall-clock time is used unchanged. -/
def monotonically_increased_timestamp (timestamp : Nat)
    (previous_timestamp : Option Nat) : Nat :=
  match previous_timestamp with
  | none => timestamp
  | some prev => max timestamp (prev + 1000)

/-- Modelled from the spec: `trim_timestamp_to_micro_second` (the helper lives
outside `src/`): truncate a nanosecond timestamp down to whole microseconds. -/
def trim_timestamp_to_micro_second (ts : Nat) : Nat :=
  ts / 1000 * 1000

/-- `TableSnapshot::new` (snapshot.rs) with the wall clock passed explicitly:
adjust the timestamp monotonically past the parent's, trim it to microsecond
resolution, and assemble the snapshot at the current format version. -/
def TableSnapshot.new (now : Nat) (snapshot_id : SnapshotId)
    (prev_timestamp : Option Nat)
    (prev_snapshot_id : Option (SnapshotId × FormatVersion))
    (schema : TableSchema) (summary : Statistics) (segments : List Location)
    (cluster_key_meta : Option ClusterKey)
    (table_statistics_location : Option String) : TableSnapshot :=
  let adjusted_timestamp := monotonically_increased_timestamp now prev_timestamp
  let trimmed_timestamp := trim_timestamp_to_micro_second adjusted_timestamp
  { format_version := TableSnapshotVERSION
    snapshot_id := snapshot_id
    timestamp := some trimmed_timestamp
    prev_snapshot_id := prev_snapshot_id
    schema := schema
    summary := summary
    segments := segments
    cluster_key_meta := cluster_key_meta
    table_statistics_location := table_statistics_location }

/-- `TableSnapshot::from_previous` (snapshot.rs) with the fresh uuid and the
wall clock passed explicitly: clone every field of the parent, link back to
it, and let `new` adjust the timestamp. -/
def TableSnapshot.from_previous (now : Nat) (id : SnapshotId)
    (previous : TableSnapshot) : TableSnapshot :=
  TableSnapshot.new now id previous.timestamp
    (some (previous.snapshot_id, previous.format_version))
    previous.schema previous.summary previous.segments
    previous.cluster_key_meta previous.table_statistics_location

/-- Little-endian byte dump of a number: `w` bytes of `n % 2 ^ (8 * w)`
(`to_le_bytes` of the fixed-width integers). -/
def natToLeBytes : Nat → Nat → List Nat
  | 0, _ => []
  | w + 1, n => n % 256 :: natToLeBytes w (n / 256)

/-- Byte dump of a string (code points of its characters). -/
def strBytes (s : String) : List Nat :=
  s.toList.map Char.toNat

/-- Modelled from the spec (§4.5): the closed enumeration of payload encoding
schemes with its stable documented default. -/
inductive Encoding where
  | Bincode
  | MessagePack
deriving DecidableEq, Repr

/-- The documented default encoding scheme (`Encoding::default()`). -/
def Encoding.default : Encoding := Encoding.Bincode

/-- The one-byte tag of an encoding scheme (`encoding as u8`). -/
def Encoding.tag : Encoding → Nat
  | .Bincode => 1
  | .MessagePack => 2

/-- Modelled from the spec (§4.5): the closed enumeration of payload
compression schemes with its stable documented default. -/
inductive Compression where
  | Uncompressed
  | Zstd
deriving DecidableEq, Repr

/-- The documented default compression scheme (`Compression::default()`). -/
def Compression.default : Compression := Compression.Zstd

/-- The one-byte tag of a compression scheme (`compression as u8`). -/
def Compression.tag : Compression → Nat
  | .Uncompressed => 0
  | .Zstd => 1

/-- Byte dump of an optional number: presence tag then the value. -/
def encodeOptNat : Option Nat → List Nat
  | none => [0]
  | some n => 1 :: natToLeBytes 8 n

/-- Byte dump of a length-prefixed string. -/
def encodeStr (s : String) : List Nat :=
  natToLeBytes 8 (strBytes s).length ++ strBytes s

/-- Byte dump of a table data type (structural tag sequence). -/
def encodeTableDataType : TableDataType → List Nat
  | .Boolean => [0]
  | .String => [1]
  | .Number64 => [2]
  | .Nullable inner => 3 :: encodeTableDataType inner

/-- Byte dump of a table schema: field count, then each field's name and
type. -/
def encodeTableSchema (s : TableSchema) : List Nat :=
  natToLeBytes 8 s.fields.length ++
    (s.fields.map (fun f => encodeStr f.name ++ encodeTableDataType f.data_type)).flatten

/-- Byte dump of the summary statistics. -/
def encodeStatistics (st : Statistics) : List Nat :=
  natToLeBytes 8 st.row_count ++ natToLeBytes 8 st.block_count ++
    natToLeBytes 8 st.perm_segment_count ++
    natToLeBytes 8 st.uncompressed_byte_size ++
    natToLeBytes 8 st.compressed_byte_size ++ natToLeBytes 8 st.index_size

/-- Modelled from the spec (§4.5): `encode` of `crate::meta::format` (outside
`src/`), the external structural encoder.  The model dumps every snapshot
field deterministically; only the envelope laid around its output is part of
the verified core. -/
def encode (_e : Encoding) (s : TableSnapshot) : Except ErrorCode (List Nat) :=
  .ok (natToLeBytes 8 s.format_version ++ natToLeBytes 8 s.snapshot_id ++
    encodeOptNat s.timestamp ++
    (match s.prev_snapshot_id with
     | none => [0]
     | some p => 1 :: natToLeBytes 8 p.1 ++ natToLeBytes 8 p.2) ++
    encodeTableSchema s.schema ++ encodeStatistics s.summary ++
    natToLeBytes 8 s.segments.length ++
    (s.segments.map (fun l => encodeStr l.1 ++ natToLeBytes 8 l.2)).flatten ++
    (match s.cluster_key_meta with
     | none => [0]
     | some c => 1 :: natToLeBytes 8 c.1 ++ encodeStr c.2) ++
    (match s.table_statistics_location with
     | none => [0]
     | some l => 1 :: encodeStr l))

/-- Modelled from the spec (§4.5): `compress` of `crate::meta::format`
(outside `src/`), the external compression codec; the compression algorithm
itself is opaque to the core, so the model uses the identity transformation
on bytes. -/
def compress (_c : Compression) (data : List Nat) : Except ErrorCode (List Nat) :=
  .ok data

/-- `TableSnapshot::to_bytes` (snapshot.rs): the serialization envelope —
format version, encoding tag, compression tag, compressed payload length,
compressed payload — assembled exactly as the source writes the buffer. -/
def TableSnapshot.to_bytes (self : TableSnapshot) : Except ErrorCode (List Nat) := do
  let encoding := Encoding.default
  let compression := Compression.default
  let data ← encode encoding self
  let data_compress ← compress compression data
  let buf : List Nat := []
  let buf := buf ++ natToLeBytes 8 self.format_version
  let buf := buf ++ [encoding.tag % 256]
  let buf := buf ++ [compression.tag % 256]
  let buf := buf ++ natToLeBytes 8 data_compress.length
  let buf := buf ++ data_compress
  pure buf

/-- The insertion loop of `TableSnapshot::build_segment_id_map`: insert each
enumerated segment location under ordinal `segment_count - i - 1`, later
insertions overwriting earlier ones exactly as `HashMap::insert` does. -/
def segIdInsertLoop (segment_count : Nat) :
    List (Nat × Location) → (String → Option Nat) → (String → Option Nat)
  | [], m => m
  | p :: rest, m =>
      segIdInsertLoop segment_count rest
        (fun x => if x = p.2.1 then some (segment_count - p.1 - 1) else m x)

/-- `TableSnapshot::build_segment_id_map` (snapshot.rs): map each segment
location to the ordinal `segment_count - position - 1` (the map is modelled
as a lookup function, standing for the `HashMap`). -/
def TableSnapshot.build_segment_id_map (self : TableSnapshot) :
    String → Option Nat :=
  segIdInsertLoop self.segments.length self.segments.enum (fun _ => none)

@[simp]
theorem exceptBind_ok {α β : Type} (a : α) (f : α → Except ErrorCode β) :
    (bind (Except.ok a) f : Except ErrorCode β) = f a := rfl

@[simp]
theorem exceptBind_err {α β : Type} (e : ErrorCode)
    (f : α → Except ErrorCode β) :
    (bind (Except.error e) f : Except ErrorCode β) = Except.error e := rfl

@[simp]
theorem exceptPure {α : Type} (a : α) :
    (pure a : Except ErrorCode α) = Except.ok a := rfl

section SegmentMapLemmas

theorem snd_mem_of_mem_enumFrom {α : Type} :
    ∀ (l : List α) (k : Nat) (p : Nat × α), p ∈ List.enumFrom k l → p.2 ∈ l := by
  intro l
  induction l with
  | nil => intro k p hp; simp [List.enumFrom] at hp
  | cons a rest ih =>
      intro k p hp
      simp only [List.enumFrom, List.mem_cons] at hp
      rcases hp with h | h
      · subst h; simp
      · exact List.mem_cons_of_mem _ (ih (k + 1) p h)

theorem segIdInsertLoop_not_mem (C : Nat) :
    ∀ (ps : List (Nat × Location)) (m : String → Option Nat) (x : String),
      (∀ p ∈ ps, p.2.1 ≠ x) → segIdInsertLoop C ps m x = m x := by
  intro ps
  induction ps with
  | nil => intro m x _; rfl
  | cons q rest ih =>
      intro m x hx
      simp only [segIdInsertLoop]
      rw [ih _ x (fun p hp => hx p (List.mem_cons_of_mem _ hp))]
      exact if_neg (fun h => hx q (List.mem_cons_self q rest) h.symm)

theorem segIdInsertLoop_base_indep (C : Nat) :
    ∀ (ps : List (Nat × Location)) (m m2 : String → Option Nat) (x : String),
      (∃ p ∈ ps, p.2.1 = x) →
      segIdInsertLoop C ps m x = segIdInsertLoop C ps m2 x := by
  intro ps
  induction ps with
  | nil => intro m m2 x hx; simp at hx
  | cons q rest ih =>
      intro m m2 x hx
      by_cases hrest : ∃ p ∈ rest, p.2.1 = x
      · simp only [segIdInsertLoop]
        exact ih _ _ x hrest
      · have hq : q.2.1 = x := by
          rcases hx with ⟨p, hp, hpx⟩
          rcases List.mem_cons.mp hp with h | h
          · subst h; exact hpx
          · exact absurd ⟨p, h, hpx⟩ hrest
        have hnone : ∀ p ∈ rest, p.2.1 ≠ x := by
          intro p hp hpx
          exact hrest ⟨p, hp, hpx⟩
        simp only [segIdInsertLoop]
        rw [segIdInsertLoop_not_mem C rest _ x hnone,
          segIdInsertLoop_not_mem C rest _ x hnone]
        simp [hq]

theorem segIdInsertLoop_shift (C : Nat) :
    ∀ (l : List Location) (k : Nat) (m : String → Option Nat),
      segIdInsertLoop (C + 1) (List.enumFrom (k + 1) l) m =
        segIdInsertLoop C (List.enumFrom k l) m := by
  intro l
  induction l with
  | nil => intro k m; rfl
  | cons s rest ih =>
      intro k m
      simp only [List.enumFrom, segIdInsertLoop]
      rw [ih (k + 1)]
      have hval : C + 1 - (k + 1) - 1 = C - k - 1 := by omega
      rw [hval]

theorem segIdInsertLoop_nodup_get (C : Nat) :
    ∀ (l : List Location) (k : Nat) (m : String → Option Nat),
      (l.map (fun s => s.1)).Nodup →
      ∀ (j : Nat) (h : j < l.length),
        segIdInsertLoop C (List.enumFrom k l) m (l.get ⟨j, h⟩).1 =
          some (C - (k + j) - 1) := by
  intro l
  induction l with
  | nil => intro k m _ j h; exact absurd h (by simp)
  | cons s rest ih =>
      intro k m hnodup j h
      have hcons := List.nodup_cons.mp
        (show (s.1 :: rest.map (fun q => q.1)).Nodup from hnodup)
      have hns : s.1 ∉ rest.map (fun q => q.1) := hcons.1
      match j with
      | 0 =>
          simp only [List.enumFrom, segIdInsertLoop, List.get]
          rw [segIdInsertLoop_not_mem C _ _ _ ?hne]
          · simp
          case hne =>
            intro p hp hpx
            exact hns (by
              have : p.2 ∈ rest := snd_mem_of_mem_enumFrom rest (k + 1) p hp
              rw [← hpx]
              exact List.mem_map_of_mem (fun q => q.1) this)
      | j + 1 =>
          simp only [List.enumFrom, segIdInsertLoop, List.get]
          have hrest : (rest.map (fun q => q.1)).Nodup := hcons.2
          have := ih (k + 1) (fun x =>
            if x = s.1 then some (C - k - 1) else m x) hrest j
            (by simpa using Nat.lt_of_succ_lt_succ (by simpa using h))
          rw [this]
          congr 1
          omega

end SegmentMapLemmas

/-- A snapshot literal with the given segments and default values elsewhere,
used for concrete instances. -/
def snapWithSegments (segs : List Location) : TableSnapshot :=
  { format_version := 3
    snapshot_id := 0
    timestamp := none
    prev_snapshot_id := none
    schema := { fields := [] }
    summary := ⟨0, 0, 0, 0, 0, 0⟩
    segments := segs
    cluster_key_meta := none
    table_statistics_location := none }

/-- C4, counterexample: the ordinal formula fails when two segments share an
identity — for `segments = [A, A]`, the claim puts the segment at position 0
at ordinal `2 - 1 - 0 = 1`, but the map (later insertions overwriting earlier
ones) answers 0 for A. -/
theorem segment_ordinal_formula_fails_on_duplicates :
    ¬ (TableSnapshot.build_segment_id_map
        (snapWithSegments [("A", 0), ("A", 0)]) "A" = some 1) := by
  decide

/-- C4, amended: for every snapshot whose segment identities are pairwise
distinct, `build_segment_id_map` maps the segment at position `i` of the
`n`-segment sequence to ordinal `n - 1 - i`; in particular `[A, B, C]` yields
`{C ↦ 0, B ↦ 1, A ↦ 2}`. -/
theorem segment_ordinal_formula_of_nodup (s : TableSnapshot)
    (hnodup : (s.segments.map (fun l => l.1)).Nodup)
    (i : Nat) (h : i < s.segments.length) :
    s.build_segment_id_map (s.segments.get ⟨i, h⟩).1 =
      some (s.segments.length - i - 1) := by
  have hmain := segIdInsertLoop_nodup_get s.segments.length s.segments 0
    (fun _ => none) hnodup i h
  simpa [TableSnapshot.build_segment_id_map, List.enum] using hmain

/-- C4, witness: for `segments = [A, B, C]` the segment at position 2 (namely
C) receives ordinal 0. -/
theorem segment_ordinal_formula_of_nodup_witness :
    TableSnapshot.build_segment_id_map
      (snapWithSegments [("A", 0), ("B", 0), ("C", 0)]) "C" = some 0 := by
  have h := segment_ordinal_formula_of_nodup
    (snapWithSegments [("A", 0), ("B", 0), ("C", 0)]) (by decide) 2 (by decide)
  exact h

/-- C3, counterexample: appending a new segment at the END of the sequence
does change the ordinal of a previously existing segment — appending B to
`[A]` moves A from ordinal 0 to ordinal 1. -/
theorem segment_ordinal_changes_on_append :
    ¬ (TableSnapshot.build_segment_id_map
        (snapWithSegments [("A", 0), ("B", 0)]) "A" =
      TableSnapshot.build_segment_id_map (snapWithSegments [("A", 0)]) "A") := by
  decide

/-- C3, amended: prepending one new segment at the FRONT of the sequence (the
direction in which the engine actually grows the segment vector) leaves the
ordinal assigned to every previously existing segment unchanged. -/
theorem segment_ordinal_stable_under_prepend (s s2 : TableSnapshot)
    (seg : Location) (hseg : s2.segments = seg :: s.segments)
    (name : String) (v : Nat) (h : s.build_segment_id_map name = some v) :
    s2.build_segment_id_map name = some v := by
  simp only [TableSnapshot.build_segment_id_map] at h ⊢
  have hmem : ∃ p ∈ List.enumFrom 0 s.segments, p.2.1 = name := by
    by_contra hno
    push_neg at hno
    have hnone := segIdInsertLoop_not_mem s.segments.length
      (List.enumFrom 0 s.segments) (fun _ => none) name hno
    rw [show s.segments.enum = List.enumFrom 0 s.segments from rfl, hnone] at h
    exact Option.noConfusion h
  rw [hseg]
  rw [show (seg :: s.segments).length = s.segments.length + 1 from rfl]
  rw [show (seg :: s.segments).enum = (0, seg) :: List.enumFrom 1 s.segments
    from rfl]
  simp only [segIdInsertLoop]
  rw [segIdInsertLoop_shift s.segments.length s.segments 0]
  rw [segIdInsertLoop_base_indep s.segments.length (List.enumFrom 0 s.segments)
    _ (fun _ => none) name hmem]
  exact h

/-- C3, witness: with `[A]` grown at the front to `[B, A]`, segment A keeps
ordinal 0. -/
theorem segment_ordinal_stable_under_prepend_witness :
    TableSnapshot.build_segment_id_map (snapWithSegments [("A", 0)]) "A" =
        some 0 ∧
    TableSnapshot.build_segment_id_map (snapWithSegments [("B", 0), ("A", 0)])
        "A" = some 0 :=
  ⟨by decide,
    segment_ordinal_stable_under_prepend (snapWithSegments [("A", 0)])
      (snapWithSegments [("B", 0), ("A", 0)]) ("B", 0) rfl "A" 0 (by decide)⟩

/-- A chain of snapshots successively derived by `from_previous`, given the
head snapshot and, for each derivation step, the wall-clock reading and the
fresh snapshot id of that step. -/
def snapshot_chain (s : TableSnapshot) :
    List (Nat × SnapshotId) → List TableSnapshot
  | [] => [s]
  | step :: rest =>
      s :: snapshot_chain (TableSnapshot.from_previous step.1 step.2 s) rest

/-- Successor relation on snapshots: both carry timestamps, the successor's is
strictly larger, and the successor's is truncated to whole microseconds. -/
def ts_strictly_after (a b : TableSnapshot) : Prop :=
  ∃ ta tb, a.timestamp = some ta ∧ b.timestamp = some tb ∧ ta < tb ∧
    tb % 1000 = 0

theorem from_previous_timestamp_step (now : Nat) (id : SnapshotId)
    (prev : TableSnapshot) (t : Nat) (h : prev.timestamp = some t) :
    ts_strictly_after prev (TableSnapshot.from_previous now id prev) := by
  refine ⟨t, trim_timestamp_to_micro_second
    (monotonically_increased_timestamp now (some t)), h, ?_, ?_, ?_⟩
  · simp [TableSnapshot.from_previous, TableSnapshot.new, h]
  · simp only [monotonically_increased_timestamp, trim_timestamp_to_micro_second]
    rcases Nat.le_total now (t + 1000) with hle | hle
    · rw [Nat.max_eq_right hle]
      omega
    · rw [Nat.max_eq_left hle]
      omega
  · simp only [trim_timestamp_to_micro_second]
    omega

theorem snapshot_chain_head (s : TableSnapshot) :
    ∀ steps : List (Nat × SnapshotId),
      (snapshot_chain s steps).head? = some s := by
  intro steps
  cases steps <;> rfl

/-- C2: along every chain of snapshots successively derived by
`from_previous` — the wall-clock readings of the steps being arbitrary, in
particular all equal — every snapshot's timestamp is strictly greater than
its parent's, and every derived snapshot's stored timestamp is truncated to
microsecond resolution. -/
theorem snapshot_chain_timestamps_strictly_monotone :
    ∀ (steps : List (Nat × SnapshotId)) (s0 : TableSnapshot) (t0 : Nat),
      s0.timestamp = some t0 →
      List.Chain' ts_strictly_after (snapshot_chain s0 steps) := by
  intro steps
  induction steps with
  | nil => intro s0 t0 _; simp [snapshot_chain]
  | cons step rest ih =>
      intro s0 t0 h0
      have hstep := from_previous_timestamp_step step.1 step.2 s0 t0 h0
      obtain ⟨ta, tb, hta, htb, hlt, hmod⟩ := hstep
      have htail := ih (TableSnapshot.from_previous step.1 step.2 s0) tb htb
      rw [show snapshot_chain s0 (step :: rest) =
        s0 :: snapshot_chain (TableSnapshot.from_previous step.1 step.2 s0) rest
        from rfl]
      refine List.chain'_cons'.mpr ⟨?_, htail⟩
      intro y hy
      rw [snapshot_chain_head] at hy
      cases hy
      exact ⟨ta, tb, hta, htb, hlt, hmod⟩

/-- C2, witness: three snapshots derived in the same wall-clock tick
(`now = 5000` nanoseconds throughout) still have strictly increasing,
microsecond-aligned timestamps. -/
theorem snapshot_chain_timestamps_strictly_monotone_witness :
    ({ snapWithSegments [] with timestamp := some 5000 } :
        TableSnapshot).timestamp = some 5000 ∧
    List.Chain' ts_strictly_after (snapshot_chain
      { snapWithSegments [] with timestamp := some 5000 }
      [(5000, 1), (5000, 2)]) :=
  ⟨rfl, snapshot_chain_timestamps_strictly_monotone [(5000, 1), (5000, 2)]
    { snapWithSegments [] with timestamp := some 5000 } 5000 rfl⟩

/-- C8: `to_bytes` emits exactly the 8-byte little-endian format version, one
encoding-tag byte, one compression-tag byte, the 8-byte little-endian length
of the compressed payload, then the payload, where the payload is the default
compression of the default encoding of the snapshot. -/
theorem snapshot_to_bytes_layout (s : TableSnapshot) :
    ∃ data payload,
      encode Encoding.default s = .ok data ∧
      compress Compression.default data = .ok payload ∧
      s.to_bytes = .ok (natToLeBytes 8 s.format_version ++
        [Encoding.default.tag % 256] ++ [Compression.default.tag % 256] ++
        natToLeBytes 8 payload.length ++ payload) := by
  exact ⟨_, _, rfl, rfl, rfl⟩

/-- C10: every filter index constructed through the load path
`from_filter_block` — whatever the schemas, the filter block and the version
supplied — carries an empty per-column approximate-distinct-count map; the
map is populated only by a fresh `try_create` build. -/
theorem from_filter_block_empty_distinct_count (func_ctx : FunctionContext)
    (source_schema filter_schema : TableSchema) (filter_block : DataBlock)
    (version : Nat) :
    ∃ bf, BlockFilter.from_filter_block func_ctx source_schema filter_schema
        filter_block version = .ok bf ∧ bf.column_distinct_count = [] :=
  ⟨_, rfl, rfl⟩

/-- C7: whenever the filter schema has no field named `Bloom(<column_name>)`,
or the constant's type is not a supported filter type, or the constant is
null, `find` answers Uncertain (never MustFalse). -/
theorem find_uncertain_on_missing_info (bf : BlockFilter) (col : String)
    (target : Scalar) (ty : DataType) (smap : List (Scalar × Nat))
    (h : bf.filter_schema.has_field
        (BlockFilter.build_filter_column_name col) = false ∨
      Xor8Filter.is_supported_type ty = false ∨ target.is_null = true) :
    bf.find col target ty smap = .ok FilterEvalResult.Uncertain := by
  rcases h with h | h | h <;> simp [BlockFilter.find, h]

/-- C7, witness: a null constant resolves as Uncertain on an empty filter
index. -/
theorem find_uncertain_on_missing_info_witness :
    Scalar.Null.is_null = true ∧
    BlockFilter.find ⟨⟨⟩, ⟨[]⟩, ⟨[]⟩, 7, ⟨[], 1⟩, []⟩ "age" Scalar.Null
      DataType.NumberUInt64 [] = .ok FilterEvalResult.Uncertain :=
  ⟨rfl, find_uncertain_on_missing_info _ "age" Scalar.Null _ []
    (Or.inr (Or.inr rfl))⟩

theorem tryCreateCollect_all_unsupported (source_schema : TableSchema)
    (blocks : List DataBlock) (b : DataBlock) :
    ∀ idxs : List Nat,
      (∀ i ∈ idxs, ∃ e, b.get_by_offset i = some e ∧
        Xor8Filter.is_supported_type e.data_type = false) →
      tryCreateCollect source_schema blocks b idxs = .ok [] := by
  intro idxs
  induction idxs with
  | nil => intro _; rfl
  | cons i rest ih =>
      intro hall
      obtain ⟨e, hget, hsupp⟩ := hall i (List.mem_cons_self i rest)
      simp [tryCreateCollect, hget, hsupp,
        ih (fun j hj => hall j (List.mem_cons_of_mem _ hj))]

/-- C9: `try_create` on an empty block list fails with the bad-input error,
and on a non-empty block list none of whose columns has a supported filter
type it succeeds with "no index" (`none`), not an error. -/
theorem try_create_edge_cases (func_ctx : FunctionContext)
    (source_schema : TableSchema) (version : Nat) :
    BlockFilter.try_create func_ctx source_schema version [] =
        .error (ErrorCode.BadArguments "block is empty") ∧
    ∀ (b : DataBlock) (rest : List DataBlock),
      (∀ e ∈ b.columns, Xor8Filter.is_supported_type e.data_type = false) →
      BlockFilter.try_create func_ctx source_schema version (b :: rest) =
        .ok none := by
  refine ⟨rfl, ?_⟩
  intro b rest hall
  have hcollect := tryCreateCollect_all_unsupported source_schema (b :: rest) b
    (List.range b.num_columns) ?side
  · simp only [BlockFilter.try_create, hcollect]
    rfl
  case side =>
    intro i hi
    have hlt : i < b.columns.length := by
      simpa [DataBlock.num_columns] using List.mem_range.mp hi
    refine ⟨b.columns.get ⟨i, hlt⟩, ?_, hall _ (b.columns.get_mem _ _)⟩
    simp [DataBlock.get_by_offset, List.get?_eq_get hlt]

/-- C6: when the stored version is the legacy v2 bloom version, `find` queries
the filter through the value-oriented interface on the constant's typed value
representation; for every other version it looks the constant up in the
caller-supplied scalar-to-digest map, a missing entry counting as contained,
hence Uncertain. -/
theorem find_dispatches_on_version (bf : BlockFilter) (col : String)
    (target : Scalar) (ty : DataType) (smap : List (Scalar × Nat))
    (idx : Nat) (edt : DataType) (bs : List Nat) (f : Xor8Filter) (sz : Nat)
    (h1 : bf.filter_schema.has_field
      (BlockFilter.build_filter_column_name col) = true)
    (h2 : Xor8Filter.is_supported_type ty = true)
    (h3 : target.is_null = false)
    (h4 : bf.filter_schema.index_of
      (BlockFilter.build_filter_column_name col) = some idx)
    (h5 : bf.filter_block.get_by_offset idx =
      some ⟨edt, Value.Scalar (Scalar.String bs)⟩)
    (h6 : Xor8Filter.from_bytes bs = .ok (f, sz)) :
    bf.find col target ty smap = .ok (
      if bf.version = V2BloomBlockVERSION then
        (if f.contains (scalar_to_datavalue target) then
          FilterEvalResult.Uncertain
        else FilterEvalResult.MustFalse)
      else
        match lookupScalar smap target with
        | some digest =>
            if f.contains_digest digest then FilterEvalResult.Uncertain
            else FilterEvalResult.MustFalse
        | none => FilterEvalResult.Uncertain) := by
  simp only [BlockFilter.find, h1, h2, h3, Bool.not_true, Bool.or_self,
    Bool.or_false, Bool.false_or, Bool.false_eq_true, if_false,
    exceptBind_ok, exceptPure, h4, h5, h6]
  by_cases hv : bf.version = V2BloomBlockVERSION
  · simp only [hv, if_true]
    cases f.contains (scalar_to_datavalue target) <;> rfl
  · simp only [hv, if_false]
    cases lookupScalar smap target with
    | none => rfl
    | some d => cases hc : f.contains_digest d <;> simp [hc]

/-- C6, witness: at version 7 (non-legacy) with the constant absent from the
digest map, the lookup answers Uncertain. -/
theorem find_dispatches_on_version_witness :
    Xor8Filter.from_bytes [1, 5] = .ok (⟨[5]⟩, 2) ∧
    BlockFilter.find
      ⟨⟨⟩, ⟨[]⟩, ⟨[⟨"Bloom(age)", TableDataType.String⟩]⟩, 7,
        ⟨[⟨DataType.String, Value.Scalar (Scalar.String [1, 5])⟩], 1⟩, []⟩
      "age" (Scalar.UInt64 3) DataType.NumberUInt64 [] =
      .ok FilterEvalResult.Uncertain :=
  ⟨rfl, find_dispatches_on_version _ "age" (Scalar.UInt64 3)
    DataType.NumberUInt64 [] 0 DataType.String [1, 5] ⟨[5]⟩ 2
    rfl rfl rfl rfl rfl rfl⟩

/-- The digest of one `UInt64` value. -/
def uint64Digest (v : Nat) : Nat := siphash (Scalar.UInt64 v)

/-- The deduplicated digests of a `UInt64` column. -/
def uint64Digests (V : List Nat) : List Nat := (V.map uint64Digest).dedup

/-- The filter index `try_create` builds over one non-nullable `UInt64`
column, written out. -/
def bfSingleUInt64 (func_ctx : FunctionContext) (col : String) (version : Nat)
    (V : List Nat) : BlockFilter :=
  { func_ctx := func_ctx
    source_schema := ⟨[⟨col, TableDataType.Number64⟩]⟩
    filter_schema :=
      ⟨[⟨BlockFilter.build_filter_column_name col, TableDataType.String⟩]⟩
    version := version
    filter_block :=
      ⟨[⟨DataType.String, Value.Scalar (Scalar.String
        ((uint64Digests V).length :: uint64Digests V))⟩], 1⟩
    column_distinct_count := [(0, (uint64Digests V).length)] }

theorem try_create_single_uint64 (func_ctx : FunctionContext) (col : String)
    (version : Nat) (V : List Nat) :
    BlockFilter.try_create func_ctx ⟨[⟨col, TableDataType.Number64⟩]⟩ version
      [⟨[⟨DataType.NumberUInt64, Value.Column (Column.UInt64 V)⟩], V.length⟩] =
      .ok (some (bfSingleUInt64 func_ctx col version V)) := by
  simp [BlockFilter.try_create, DataBlock.num_columns, List.range_succ,
    tryCreateCollect, DataBlock.get_by_offset, Xor8Filter.is_supported_type,
    TableSchema.field, DataType.is_nullable, Value.convert_to_full_column,
    Column.concat, List.isEmpty, tryCreateBuild, List.mapM, List.mapM.loop,
    BlockFilter.calculate_column_digest, columnSiphash, Xor8Builder.create,
    Xor8Builder.add_digests, Xor8Builder.build, Xor8Filter.len,
    TableSchema.index_of, Xor8Filter.to_bytes, bfSingleUInt64, uint64Digests,
    uint64Digest]
  exact ⟨⟨rfl, rfl⟩, rfl⟩

theorem uint64Digest_mem_iff (c : Nat) (V : List Nat) :
    uint64Digest c ∈ uint64Digests V ↔ c ∈ V := by
  simp only [uint64Digests, List.mem_dedup, List.mem_map]
  constructor
  · rintro ⟨v, hv, heq⟩
    have hscalar : Scalar.UInt64 v = Scalar.UInt64 c := siphash_injective heq
    cases hscalar
    exact hv
  · intro hc
    exact ⟨c, hc, rfl⟩

theorem find_single_uint64 (func_ctx : FunctionContext) (col : String)
    (version : Nat) (V : List Nat) (c : Nat) (smap : List (Scalar × Nat))
    (hver : version ≠ V2BloomBlockVERSION)
    (hsmap : lookupScalar smap (Scalar.UInt64 c) = some (uint64Digest c)) :
    (bfSingleUInt64 func_ctx col version V).find col (Scalar.UInt64 c)
      DataType.NumberUInt64 smap =
      .ok (if c ∈ V then FilterEvalResult.Uncertain
        else FilterEvalResult.MustFalse) := by
  by_cases hc : c ∈ V <;>
    simp [BlockFilter.find, bfSingleUInt64, TableSchema.has_field,
      Xor8Filter.is_supported_type, Scalar.is_null, TableSchema.index_of,
      DataBlock.get_by_offset, Xor8Filter.from_bytes, hver, hsmap,
      Xor8Filter.contains_digest, hc,
      show (uint64Digest c ∈ uint64Digests V) = (c ∈ V) from
        propext (uint64Digest_mem_iff c V)]

/-- C1: for a block filter built by `try_create` over a column `col` holding
the values `V`, and the predicate `col = c` with a non-null constant `c`
whose digest appears in the supplied digest lookup table (the version being a
current, non-legacy one), `eval` answers MustFalse exactly when `c` is not
among `V`, and Uncertain (never MustFalse) when `c` is among `V`. -/
theorem bloom_filter_pruning_sound (func_ctx : FunctionContext) (col : String)
    (version : Nat) (V : List Nat) (c : Nat) (smap : List (Scalar × Nat))
    (sp sp1 sp2 : Span) (cdt rty : DataType)
    (hver : version ≠ V2BloomBlockVERSION)
    (hsmap : lookupScalar smap (Scalar.UInt64 c) = some (uint64Digest c)) :
    ∃ bf, BlockFilter.try_create func_ctx ⟨[⟨col, TableDataType.Number64⟩]⟩
        version
        [⟨[⟨DataType.NumberUInt64, Value.Column (Column.UInt64 V)⟩],
          V.length⟩] = .ok (some bf) ∧
      bf.eval (Expr.FunctionCall sp "eq"
          [Expr.ColumnRef sp1 col DataType.NumberUInt64,
           Expr.Constant sp2 (Scalar.UInt64 c) cdt] rty) smap =
        .ok (if c ∈ V then FilterEvalResult.Uncertain
          else FilterEvalResult.MustFalse) := by
  refine ⟨_, try_create_single_uint64 func_ctx col version V, ?_⟩
  have hfind := find_single_uint64 func_ctx col version V c smap hver hsmap
  by_cases hc : c ∈ V
  · rw [if_pos hc] at hfind ⊢
    simp [BlockFilter.eval, visit_expr_column_eq_constant, hfind,
      visitEqArgs, ConstantFolder.fold, foldExpr, foldExprArgs, evalConstCall]
  · rw [if_neg hc] at hfind ⊢
    simp [BlockFilter.eval, visit_expr_column_eq_constant, hfind,
      visitEqArgs, ConstantFolder.fold, foldExpr, foldExprArgs, evalConstCall]

/-- C1, witness: over `age = [20, 30, 20]`, the predicate `age = 99` prunes
the block (MustFalse) and `age = 20` does not (Uncertain). -/
theorem bloom_filter_pruning_sound_witness :
    (7 ≠ V2BloomBlockVERSION ∧ (99 ∈ [20, 30, 20]) = False) ∧
    (∃ bf, BlockFilter.try_create ⟨⟩ ⟨[⟨"age", TableDataType.Number64⟩]⟩ 7
        [⟨[⟨DataType.NumberUInt64,
            Value.Column (Column.UInt64 [20, 30, 20])⟩], 3⟩] =
        .ok (some bf) ∧
      bf.eval (Expr.FunctionCall none "eq"
          [Expr.ColumnRef none "age" DataType.NumberUInt64,
           Expr.Constant none (Scalar.UInt64 99) DataType.NumberUInt64]
          DataType.Boolean) [(Scalar.UInt64 99, uint64Digest 99)] =
        .ok (if (99 : Nat) ∈ [20, 30, 20] then FilterEvalResult.Uncertain
          else FilterEvalResult.MustFalse)) :=
  ⟨⟨by decide, by simp⟩,
    bloom_filter_pruning_sound ⟨⟩ "age" 7 [20, 30, 20] 99
      [(Scalar.UInt64 99, uint64Digest 99)] none none none
      DataType.NumberUInt64 DataType.Boolean (by decide) (by simp [lookupScalar])⟩

/-- C5: building over a nullable column with at least one null position, the
filter is built from the digest sequence in which every null position
contributes the fixed zero sentinel digest — independent of whatever value
the underlying buffer holds there — while every non-null position contributes
the digest of its value. -/
theorem null_positions_digest_fixed_sentinel (func_ctx : FunctionContext)
    (col : String) (vs : List Nat) (validity : List Bool) (version : Nat)
    (hlen : validity.length = vs.length) (hnull : false ∈ validity) :
    ∃ bf bs f n,
      BlockFilter.try_create func_ctx
        ⟨[⟨col, TableDataType.Nullable TableDataType.Number64⟩]⟩ version
        [⟨[⟨DataType.Nullable DataType.NumberUInt64,
            Value.Column (Column.Nullable (Column.UInt64 vs) validity)⟩],
          vs.length⟩] = .ok (some bf) ∧
      bf.filter_block.get_by_offset 0 =
        some ⟨DataType.String, Value.Scalar (Scalar.String bs)⟩ ∧
      Xor8Filter.from_bytes bs = .ok (f, n) ∧
      f.keys = (((vs.map uint64Digest).zip validity).map
        (fun p => if !p.2 then 0 else p.1)).dedup := by
  have hcnt : validity.count false > 0 := List.count_pos_iff.mpr hnull
  have hbytes := Xor8Filter.from_to_bytes
    ⟨(((vs.map uint64Digest).zip validity).map
      (fun p => if !p.2 then 0 else p.1)).dedup⟩ _ rfl
  refine ⟨{ func_ctx := func_ctx
            source_schema :=
              ⟨[⟨col, TableDataType.Nullable TableDataType.Number64⟩]⟩
            filter_schema := ⟨[⟨BlockFilter.build_filter_column_name col,
              TableDataType.String⟩]⟩
            version := version
            filter_block := ⟨[⟨DataType.String, Value.Scalar (Scalar.String
              ((((vs.map uint64Digest).zip validity).map
                (fun p => if !p.2 then 0 else p.1)).dedup.length ::
                (((vs.map uint64Digest).zip validity).map
                  (fun p => if !p.2 then 0 else p.1)).dedup))⟩], 1⟩
            column_distinct_count := [(0, (((vs.map uint64Digest).zip
              validity).map (fun p => if !p.2 then 0 else p.1)).dedup.length)] },
    _, _, _, ?_, rfl, hbytes, rfl⟩
  simp [BlockFilter.try_create, DataBlock.num_columns, List.range_succ,
    tryCreateCollect, DataBlock.get_by_offset, Xor8Filter.is_supported_type,
    TableSchema.field, DataType.is_nullable, Value.convert_to_full_column,
    Column.concat, List.isEmpty, tryCreateBuild, List.mapM, List.mapM.loop,
    BlockFilter.calculate_column_digest, columnSiphash, Xor8Builder.create,
    Xor8Builder.add_digests, Xor8Builder.build, Xor8Filter.len,
    TableSchema.index_of, Xor8Filter.to_bytes, uint64Digest, hcnt, hnull]
  exact ⟨⟨rfl, rfl⟩, rfl⟩

/-- C5, witness: a nullable column `[10, 10]` whose second position is null is
digested to `[digest 10, 0]`. -/
theorem null_positions_digest_fixed_sentinel_witness :
    ([true, false] : List Bool).length = ([10, 10] : List Nat).length ∧
    false ∈ ([true, false] : List Bool) ∧
    (∃ bf bs f n,
      BlockFilter.try_create ⟨⟩
        ⟨[⟨"age", TableDataType.Nullable TableDataType.Number64⟩]⟩ 7
        [⟨[⟨DataType.Nullable DataType.NumberUInt64,
            Value.Column (Column.Nullable (Column.UInt64 [10, 10])
              [true, false])⟩], ([10, 10] : List Nat).length⟩] =
        .ok (some bf) ∧
      bf.filter_block.get_by_offset 0 =
        some ⟨DataType.String, Value.Scalar (Scalar.String bs)⟩ ∧
      Xor8Filter.from_bytes bs = .ok (f, n) ∧
      f.keys = (((([10, 10] : List Nat).map uint64Digest).zip
        ([true, false] : List Bool)).map
          (fun p => if !p.2 then 0 else p.1)).dedup) :=
  ⟨rfl, by decide,
    null_positions_digest_fixed_sentinel ⟨⟩ "age" [10, 10] [true, false] 7 rfl
      (by decide)⟩

/-- C9, witness: the empty list errors, and a block with one nested-typed
column yields no index. -/
theorem try_create_edge_cases_witness :
    Xor8Filter.is_supported_type (DataType.Array DataType.NumberUInt64)
        = false ∧
    BlockFilter.try_create ⟨⟩ ⟨[]⟩ 7
      [⟨[⟨DataType.Array DataType.NumberUInt64,
          Value.Column (Column.Array (Column.UInt64 []))⟩], 0⟩] = .ok none :=
  ⟨rfl, (try_create_edge_cases ⟨⟩ ⟨[]⟩ 7).2 _ [] (by decide)⟩
